import Mathlib

/-!
Verification of the parametric curve-fitting pipeline
(ParametricModel.py, LossFunction.py, Optimizer.py, Data_Loader.py).

The numeric code is embedded over `ℝ`; NumPy arrays become `List ℝ`,
Python exceptions become `Except` error values, and the SciPy solver
calls (external library code) are abstracted as oracle arguments whose
results are threaded exactly as the source threads them.
-/

noncomputable section

/-- The parametric curve model class (`ParametricModel.__init__` stores
`y_offset`, default 42.0, and `frequency`, default 0.3). -/
structure ParametricModel where
  y_offset : ℝ
  frequency : ℝ

/-- The model constructed with the default configuration
(`ParametricModel()`, y_offset = 42.0, frequency = 0.3). -/
def defaultModel : ParametricModel := ⟨42, 0.3⟩

/-- Embedding of `ParametricModel.predict`: converts `theta_deg` to radians
(`np.deg2rad`), takes `cos`/`sin`, and maps over the sample array `t`
computing `exp_term = exp(m * |t|)`, `sin_freq_t = sin(frequency * t)`,
`x_pred = t*cos_theta - exp_term*sin_freq_t*sin_theta + x`,
`y_pred = y_offset + t*sin_theta + exp_term*sin_freq_t*cos_theta`. -/
def ParametricModel.predict (M : ParametricModel) (t : List ℝ)
    (theta_deg m x : ℝ) : List ℝ × List ℝ :=
  let theta_rad := theta_deg * Real.pi / 180
  let cos_theta := Real.cos theta_rad
  let sin_theta := Real.sin theta_rad
  (t.map fun ti =>
      ti * cos_theta - Real.exp (m * |ti|) * Real.sin (M.frequency * ti) * sin_theta + x,
   t.map fun ti =>
      M.y_offset + ti * sin_theta + Real.exp (m * |ti|) * Real.sin (M.frequency * ti) * cos_theta)

/-- Embedding of `ParametricModel.get_parameter_bounds`: the fixed triple
`((0.0, 50.0), (-0.05, 0.05), (0.0, 100.0))`. -/
def ParametricModel.get_parameter_bounds (_M : ParametricModel) :
    (ℝ × ℝ) × (ℝ × ℝ) × (ℝ × ℝ) :=
  ((0, 50), (-0.05, 0.05), (0, 100))

/-- Embedding of `ParametricModel.validate_parameters`: the chained
comparison `theta_min <= theta_deg <= theta_max and m_min <= m <= m_max
and x_min <= x <= x_max` against `get_parameter_bounds`. -/
def ParametricModel.validate_parameters (M : ParametricModel)
    (theta_deg m x : ℝ) : Prop :=
  let b := M.get_parameter_bounds
  (b.1.1 ≤ theta_deg ∧ theta_deg ≤ b.1.2) ∧
  (b.2.1.1 ≤ m ∧ m ≤ b.2.1.2) ∧
  (b.2.2.1 ≤ x ∧ x ≤ b.2.2.2)

/-- C2: on the default model, `predict` returns two sequences of the same
length as `t_samples`, and at each index `i`, with
`theta_rad = theta_deg * π / 180`, `c = cos theta_rad`, `s = sin theta_rad`,
`exp_term = exp (m * |t_i|)` and `wobble = sin (0.3 * t_i)`:
`x_pred_i = t_i*c - exp_term*wobble*s + x` and
`y_pred_i = 42.0 + t_i*s + exp_term*wobble*c`. -/
theorem predict_length_and_pointwise (t_samples : List ℝ) (theta_deg m x : ℝ)
    (i : ℕ) (hi : i < t_samples.length) :
    (defaultModel.predict t_samples theta_deg m x).1.length = t_samples.length ∧
    (defaultModel.predict t_samples theta_deg m x).2.length = t_samples.length ∧
    (defaultModel.predict t_samples theta_deg m x).1.getD i 0 =
      t_samples.getD i 0 * Real.cos (theta_deg * Real.pi / 180) -
        Real.exp (m * |t_samples.getD i 0|) * Real.sin (0.3 * t_samples.getD i 0) *
          Real.sin (theta_deg * Real.pi / 180) + x ∧
    (defaultModel.predict t_samples theta_deg m x).2.getD i 0 =
      42.0 + t_samples.getD i 0 * Real.sin (theta_deg * Real.pi / 180) +
        Real.exp (m * |t_samples.getD i 0|) * Real.sin (0.3 * t_samples.getD i 0) *
          Real.cos (theta_deg * Real.pi / 180) := by
  have h1 : (defaultModel.predict t_samples theta_deg m x).1.length = t_samples.length := by
    simp [ParametricModel.predict]
  have h2 : (defaultModel.predict t_samples theta_deg m x).2.length = t_samples.length := by
    simp [ParametricModel.predict]
  refine ⟨h1, h2, ?_, ?_⟩ <;>
  · rw [List.getD_eq_getElem _ _ (by simpa [ParametricModel.predict] using hi),
      List.getD_eq_getElem _ _ hi]
    simp [ParametricModel.predict, defaultModel]
    try norm_num

/-- Witness for C2 at `t_samples = [0]`, `theta_deg = m = x = 0`, `i = 0`. -/
theorem predict_length_and_pointwise_witness :
    (defaultModel.predict [0] 0 0 0).1.length = ([0] : List ℝ).length ∧
    (defaultModel.predict [0] 0 0 0).2.length = ([0] : List ℝ).length ∧
    (defaultModel.predict [0] 0 0 0).1.getD 0 0 =
      ([0] : List ℝ).getD 0 0 * Real.cos (0 * Real.pi / 180) -
        Real.exp (0 * |([0] : List ℝ).getD 0 0|) *
          Real.sin (0.3 * ([0] : List ℝ).getD 0 0) *
          Real.sin (0 * Real.pi / 180) + 0 ∧
    (defaultModel.predict [0] 0 0 0).2.getD 0 0 =
      42.0 + ([0] : List ℝ).getD 0 0 * Real.sin (0 * Real.pi / 180) +
        Real.exp (0 * |([0] : List ℝ).getD 0 0|) *
          Real.sin (0.3 * ([0] : List ℝ).getD 0 0) *
          Real.cos (0 * Real.pi / 180) :=
  predict_length_and_pointwise [0] 0 0 0 0 (by simp)

/-- The Python exceptions that `L1Loss.compute` can raise: `ZeroDivisionError`
from `total_min_l1_distance / N_obs` when `N_obs = 0`, `IndexError` from
`y_obs[i]` when `y_obs` is shorter than `x_obs`, and the `ValueError` that
`np.min` raises on an empty distance array. -/
inductive LossError
  | zeroDivisionError
  | indexError
  | valueError
deriving DecidableEq

/-- `np.min` on a list: the minimum of a non-empty list
(the `[]` case is junk and is reached only behind the emptiness guard,
where the source raises `ValueError` instead). -/
def npMin : List ℝ → ℝ
  | [] => 0
  | a :: as => as.foldl min a

/-- The elementwise L1 distance array
`np.abs(x_curve - x_i) + np.abs(y_curve - y_i)`. -/
def l1dists (xc yc : List ℝ) (xi yi : ℝ) : List ℝ :=
  (xc.zip yc).map fun p => |p.1 - xi| + |p.2 - yi|

/-- Embedding of the `for i in range(N_obs)` accumulation loop of
`L1Loss.compute`: walks `x_obs` while indexing `y_obs` in lockstep
(`IndexError` when `y_obs` runs out first), and per iteration adds
`np.min(l1_distances)` to the running total (`ValueError` when the
distance array is empty, i.e. the curve has no samples). -/
def lossLoop (xc yc : List ℝ) : List ℝ → List ℝ → ℝ → Except LossError ℝ
  | [], _, acc => .ok acc
  | _ :: _, [], _ => .error .indexError
  | xi :: xs, _yi :: ys, acc =>
      if (l1dists xc yc xi _yi).isEmpty then .error .valueError
      else lossLoop xc yc xs ys (acc + npMin (l1dists xc yc xi _yi))

/-- The loss-function class (`L1Loss.__init__` stores the model). -/
structure L1Loss where
  model : ParametricModel

/-- Embedding of `L1Loss.compute`: unpacks `params = [theta_deg, m, x]`,
calls `self.model.predict(t_grid, theta_deg, m, x)`, accumulates the
per-observation minimum L1 distances, and returns
`total_min_l1_distance / N_obs` (raising `ZeroDivisionError` when
`N_obs = 0`). -/
def L1Loss.compute (L : L1Loss) (params : ℝ × ℝ × ℝ)
    (t_grid x_obs y_obs : List ℝ) : Except LossError ℝ :=
  let pr := L.model.predict t_grid params.1 params.2.1 params.2.2
  match lossLoop pr.1 pr.2 x_obs y_obs 0 with
  | .error e => .error e
  | .ok total =>
      if x_obs.length = 0 then .error .zeroDivisionError
      else .ok (total / (x_obs.length : ℝ))

lemma foldl_min_le_init (as : List ℝ) : ∀ a : ℝ, as.foldl min a ≤ a := by
  induction as with
  | nil => intro a; simp
  | cons b bs ih =>
      intro a
      calc (b :: bs).foldl min a = bs.foldl min (min a b) := by simp
        _ ≤ min a b := ih (min a b)
        _ ≤ a := min_le_left a b

lemma foldl_min_le_mem (as : List ℝ) : ∀ (a y : ℝ), y ∈ as → as.foldl min a ≤ y := by
  induction as with
  | nil => intro a y hy; simp at hy
  | cons b bs ih =>
      intro a y hy
      rcases List.mem_cons.mp hy with h | h
      · subst h
        calc (y :: bs).foldl min a = bs.foldl min (min a y) := by simp
          _ ≤ min a y := foldl_min_le_init bs (min a y)
          _ ≤ y := min_le_right a y
      · simpa using ih (min a b) y h

lemma npMin_le (l : List ℝ) (y : ℝ) (hy : y ∈ l) : npMin l ≤ y := by
  cases l with
  | nil => simp at hy
  | cons a as =>
      rcases List.mem_cons.mp hy with h | h
      · subst h; exact foldl_min_le_init as y
      · exact foldl_min_le_mem as a y h

lemma foldl_min_mem (as : List ℝ) : ∀ a : ℝ, as.foldl min a = a ∨ as.foldl min a ∈ as := by
  induction as with
  | nil => intro a; simp
  | cons b bs ih =>
      intro a
      have h : (b :: bs).foldl min a = bs.foldl min (min a b) := by simp
      rcases ih (min a b) with h1 | h1
      · rcases min_choice a b with h2 | h2
        · exact Or.inl (by rw [h, h1, h2])
        · exact Or.inr (by rw [h, h1, h2]; exact List.mem_cons_self b bs)
      · exact Or.inr (by rw [h]; exact List.mem_cons_of_mem b h1)

lemma npMin_mem (l : List ℝ) (hl : l ≠ []) : npMin l ∈ l := by
  cases l with
  | nil => exact absurd rfl hl
  | cons a as =>
      rcases foldl_min_mem as a with h | h
      · rw [npMin, h]; exact List.mem_cons_self a as
      · exact List.mem_cons_of_mem a h

lemma npMin_perm {l l' : List ℝ} (h : l.Perm l') : npMin l = npMin l' := by
  rcases eq_or_ne l [] with hl | hl
  · subst hl
    rw [List.perm_nil.mp h.symm]
  · have hl' : l' ≠ [] := fun he => hl (List.perm_nil.mp (he ▸ h))
    exact le_antisymm
      (npMin_le l _ (h.mem_iff.mpr (npMin_mem l' hl')))
      (npMin_le l' _ (h.mem_iff.mp (npMin_mem l hl)))

lemma l1dists_isEmpty (xc yc : List ℝ) (xi yi : ℝ) :
    (l1dists xc yc xi yi).isEmpty = (xc.zip yc).isEmpty := by
  cases h : xc.zip yc <;> simp [l1dists, h]

lemma lossLoop_eq (xc yc : List ℝ) :
    ∀ (xs ys : List ℝ) (acc : ℝ), xs.length ≤ ys.length →
      lossLoop xc yc xs ys acc =
        if xs ≠ [] ∧ (xc.zip yc).isEmpty then .error .valueError
        else .ok (acc +
          ((xs.zip ys).map fun q => npMin (l1dists xc yc q.1 q.2)).sum) := by
  intro xs
  induction xs with
  | nil => intro ys acc _; simp [lossLoop]
  | cons xi xs ih =>
      intro ys acc hlen
      cases ys with
      | nil => simp at hlen
      | cons yi ys =>
          rw [lossLoop, l1dists_isEmpty]
          by_cases he : (xc.zip yc).isEmpty
          · simp [he]
          · rw [if_neg (by simpa using he),
              ih ys (acc + npMin (l1dists xc yc xi yi)) (by simpa using hlen)]
            simp [he, add_assoc]

lemma predict_fst_length (M : ParametricModel) (t : List ℝ) (theta_deg m x : ℝ) :
    (M.predict t theta_deg m x).1.length = t.length := by
  simp [ParametricModel.predict]

lemma predict_snd_length (M : ParametricModel) (t : List ℝ) (theta_deg m x : ℝ) :
    (M.predict t theta_deg m x).2.length = t.length := by
  simp [ParametricModel.predict]

lemma predict_zip_isEmpty (M : ParametricModel) (t : List ℝ) (theta_deg m x : ℝ) :
    ((M.predict t theta_deg m x).1.zip (M.predict t theta_deg m x).2).isEmpty =
      t.isEmpty := by
  cases t <;> simp [ParametricModel.predict]

/-- Full case analysis of `L1Loss.compute` (assuming `y_obs` is at least as
long as `x_obs`, so no `IndexError` occurs): empty curve with at least one
observation raises `ValueError`, empty observation set raises
`ZeroDivisionError`, and otherwise the result is the accumulated sum of
per-observation minima divided by the observation count. -/
lemma compute_eq (L : L1Loss) (params : ℝ × ℝ × ℝ) (t_grid x_obs y_obs : List ℝ)
    (h : x_obs.length ≤ y_obs.length) :
    L.compute params t_grid x_obs y_obs =
      if x_obs ≠ [] ∧ t_grid = [] then .error .valueError
      else if x_obs = [] then .error .zeroDivisionError
      else .ok ((((x_obs.zip y_obs).map fun q =>
          npMin (l1dists (L.model.predict t_grid params.1 params.2.1 params.2.2).1
            (L.model.predict t_grid params.1 params.2.1 params.2.2).2 q.1 q.2)).sum) /
        (x_obs.length : ℝ)) := by
  rw [L1Loss.compute, lossLoop_eq _ _ _ _ _ h, predict_zip_isEmpty]
  by_cases hx : x_obs = []
  · subst hx; simp
  · by_cases hg : t_grid = []
    · subst hg; simp [hx]
    · have hge : t_grid.isEmpty = false := by
        cases t_grid with
        | nil => exact absurd rfl hg
        | cons a as => rfl
      simp [hge, hx, hg, List.length_eq_zero]

lemma npMin_eq_inf (l : List ℝ) (hl : l ≠ []) :
    npMin l = (Finset.range l.length).inf'
      (Finset.nonempty_range_iff.mpr fun h0 => hl (List.length_eq_zero.mp h0))
      (fun j => l.getD j 0) := by
  apply le_antisymm
  · apply Finset.le_inf'
    intro j hj
    have hjl : j < l.length := Finset.mem_range.mp hj
    rw [List.getD_eq_getElem l 0 hjl]
    exact npMin_le l _ (List.getElem_mem hjl)
  · obtain ⟨j, hjl, hje⟩ := List.mem_iff_getElem.mp (npMin_mem l hl)
    calc (Finset.range l.length).inf' _ (fun j => l.getD j 0) ≤ l.getD j 0 :=
          Finset.inf'_le _ (Finset.mem_range.mpr hjl)
      _ = npMin l := by rw [List.getD_eq_getElem l 0 hjl, hje]

lemma map_sum_eq_range_sum {α : Type} (f : α → ℝ) (d : α) (l : List α) :
    (l.map f).sum = ∑ i ∈ Finset.range l.length, f (l.getD i d) := by
  induction l with
  | nil => simp
  | cons a as ih =>
      rw [List.map_cons, List.sum_cons, ih, List.length_cons, Finset.sum_range_succ']
      simp [add_comm]

lemma l1dists_length (xc yc : List ℝ) (xi yi : ℝ) :
    (l1dists xc yc xi yi).length = min xc.length yc.length := by
  simp [l1dists]

lemma l1dists_getD (xc yc : List ℝ) (xi yi : ℝ) (j : ℕ)
    (hx : j < xc.length) (hy : j < yc.length) :
    (l1dists xc yc xi yi).getD j 0 = |xc.getD j 0 - xi| + |yc.getD j 0 - yi| := by
  have hm : j < (l1dists xc yc xi yi).length := by rw [l1dists_length]; omega
  rw [List.getD_eq_getElem _ _ hm, List.getD_eq_getElem _ _ hx,
    List.getD_eq_getElem _ _ hy]
  simp [l1dists, List.getElem_zip]

/-- C1: with a non-empty `t_grid` and equal-length, non-empty observation
sequences, `Loss.compute` returns the mean over observations `i` of the
minimum over grid indices `j` of
`|x_curve_j - x_obs_i| + |y_curve_j - y_obs_i|`, where
`(x_curve, y_curve) = Model.predict(t_grid, theta_deg, m, x)`. -/
theorem compute_eq_mean_min_l1 (L : L1Loss) (theta_deg m x : ℝ)
    (t_grid x_obs y_obs : List ℝ) (hg : t_grid ≠ [])
    (hlen : x_obs.length = y_obs.length) (hN : x_obs ≠ []) :
    L.compute (theta_deg, m, x) t_grid x_obs y_obs =
      .ok ((∑ i ∈ Finset.range x_obs.length,
        (Finset.range t_grid.length).inf'
          (Finset.nonempty_range_iff.mpr fun h0 => hg (List.length_eq_zero.mp h0))
          (fun j =>
            |(L.model.predict t_grid theta_deg m x).1.getD j 0 - x_obs.getD i 0| +
            |(L.model.predict t_grid theta_deg m x).2.getD j 0 - y_obs.getD i 0|)) /
        (x_obs.length : ℝ)) := by
  rw [compute_eq _ _ _ _ _ (le_of_eq hlen), if_neg (fun hc => hg hc.2), if_neg hN]
  congr 1
  have hz : (x_obs.zip y_obs).length = x_obs.length := by
    rw [List.length_zip, hlen, min_self]
  rw [map_sum_eq_range_sum _ (0, 0), hz]
  apply congrArg (fun s => s / (x_obs.length : ℝ))
  apply Finset.sum_congr rfl
  intro i hi
  have hiN : i < x_obs.length := Finset.mem_range.mp hi
  have hiz : i < (x_obs.zip y_obs).length := by omega
  have hq : (x_obs.zip y_obs).getD i (0, 0) = (x_obs.getD i 0, y_obs.getD i 0) := by
    rw [List.getD_eq_getElem _ _ hiz, List.getD_eq_getElem _ _ hiN,
      List.getD_eq_getElem _ _ (by omega : i < y_obs.length), List.getElem_zip]
  rw [hq]
  have hne : l1dists (L.model.predict t_grid theta_deg m x).1
      (L.model.predict t_grid theta_deg m x).2 (x_obs.getD i 0) (y_obs.getD i 0) ≠ [] := by
    intro he
    have := congrArg List.length he
    rw [l1dists_length, predict_fst_length, predict_snd_length, min_self] at this
    exact hg (List.length_eq_zero.mp this)
  rw [npMin_eq_inf _ hne]
  have hlen' : (l1dists (L.model.predict t_grid theta_deg m x).1
      (L.model.predict t_grid theta_deg m x).2 (x_obs.getD i 0) (y_obs.getD i 0)).length =
      t_grid.length := by
    rw [l1dists_length, predict_fst_length, predict_snd_length, min_self]
  apply Finset.inf'_congr _ (by rw [hlen'])
  intro j hj
  have hjG : j < t_grid.length := by
    have := Finset.mem_range.mp hj
    omega
  exact l1dists_getD _ _ _ _ j (by rw [predict_fst_length]; omega)
    (by rw [predict_snd_length]; omega)

/-- Witness for C1 at the default model, params (0, 0, 0), `t_grid = [0]`,
`x_obs = [0]`, `y_obs = [42]`. -/
theorem compute_eq_mean_min_l1_witness :
    L1Loss.compute ⟨defaultModel⟩ (0, 0, 0) [0] [0] [42] =
      .ok ((∑ i ∈ Finset.range 1,
        (Finset.range 1).inf' ⟨0, by decide⟩
          (fun j =>
            |(ParametricModel.predict defaultModel [0] 0 0 0).1.getD j 0 -
              ([0] : List ℝ).getD i 0| +
            |(ParametricModel.predict defaultModel [0] 0 0 0).2.getD j 0 -
              ([42] : List ℝ).getD i 0|)) /
        ((1 : ℕ) : ℝ)) :=
  compute_eq_mean_min_l1 ⟨defaultModel⟩ 0 0 0 [0] [0] [42] (by simp) rfl (by simp)

lemma npMin_nonneg (l : List ℝ) (h : ∀ y ∈ l, 0 ≤ y) : 0 ≤ npMin l := by
  cases l with
  | nil => exact le_refl 0
  | cons a as => exact h _ (npMin_mem _ (by simp))

lemma l1dists_mem_nonneg (xc yc : List ℝ) (xi yi : ℝ) :
    ∀ y ∈ l1dists xc yc xi yi, 0 ≤ y := by
  intro y hy
  obtain ⟨p, -, rfl⟩ := List.mem_map.mp hy
  exact add_nonneg (abs_nonneg _) (abs_nonneg _)

/-- C7: `Loss.compute` never returns a negative value, and whenever every
observed point coincides with some sampled curve point, it returns
exactly 0. -/
theorem compute_nonneg_and_zero_on_curve (L : L1Loss) (theta_deg m x : ℝ)
    (t_grid x_obs y_obs : List ℝ)
    (hlen : x_obs.length = y_obs.length) (hN : x_obs ≠ []) :
    (∀ v, L.compute (theta_deg, m, x) t_grid x_obs y_obs = .ok v → 0 ≤ v) ∧
    ((∀ q ∈ x_obs.zip y_obs,
        q ∈ (L.model.predict t_grid theta_deg m x).1.zip
          (L.model.predict t_grid theta_deg m x).2) →
      L.compute (theta_deg, m, x) t_grid x_obs y_obs = .ok 0) := by
  constructor
  · intro v hv
    rw [compute_eq _ _ _ _ _ (le_of_eq hlen)] at hv
    by_cases hg : t_grid = []
    · rw [if_pos ⟨hN, hg⟩] at hv; cases hv
    · rw [if_neg (fun hc => hg hc.2), if_neg hN] at hv
      injection hv with hv
      subst hv
      apply div_nonneg _ (Nat.cast_nonneg _)
      apply List.sum_nonneg
      intro a ha
      obtain ⟨q, -, rfl⟩ := List.mem_map.mp ha
      exact npMin_nonneg _ (l1dists_mem_nonneg _ _ _ _)
  · intro hon
    have hzx : (x_obs.zip y_obs).length = x_obs.length := by
      rw [List.length_zip, hlen, min_self]
    obtain ⟨q0, hq0⟩ := List.exists_mem_of_ne_nil (x_obs.zip y_obs)
      (fun he => hN (List.length_eq_zero.mp (by rw [← hzx, he]; rfl)))
    have hcne := List.ne_nil_of_mem (hon q0 hq0)
    have hg : t_grid ≠ [] := by
      intro hgg
      rw [hgg] at hcne
      exact hcne (by simp [ParametricModel.predict])
    rw [compute_eq _ _ _ _ _ (le_of_eq hlen), if_neg (fun hc => hg hc.2), if_neg hN]
    have hsum : ((x_obs.zip y_obs).map fun q =>
        npMin (l1dists (L.model.predict t_grid theta_deg m x).1
          (L.model.predict t_grid theta_deg m x).2 q.1 q.2)).sum = 0 := by
      apply List.sum_eq_zero
      intro a ha
      obtain ⟨q, hq, rfl⟩ := List.mem_map.mp ha
      apply le_antisymm
      · have h0 : (0 : ℝ) ∈ l1dists (L.model.predict t_grid theta_deg m x).1
            (L.model.predict t_grid theta_deg m x).2 q.1 q.2 := by
          have := hon q hq
          have hmem : (|q.1 - q.1| + |q.2 - q.2| : ℝ) ∈
              l1dists (L.model.predict t_grid theta_deg m x).1
                (L.model.predict t_grid theta_deg m x).2 q.1 q.2 :=
            List.mem_map.mpr ⟨q, this, rfl⟩
          simpa using hmem
        exact npMin_le _ _ h0
      · exact npMin_nonneg _ (l1dists_mem_nonneg _ _ _ _)
    rw [hsum, zero_div]

/-- Witness for C7: an observation lying exactly on the sampled curve gives
loss 0 (default model, params (0, 0, 0), grid [0], observation (0, 42)). -/
theorem compute_nonneg_and_zero_on_curve_witness :
    L1Loss.compute ⟨defaultModel⟩ (0, 0, 0) [0] [0] [42] = .ok 0 :=
  (compute_nonneg_and_zero_on_curve ⟨defaultModel⟩ 0 0 0 [0] [0] [42] rfl
    (by simp)).2 (by
      intro q hq
      have hq' : q = ((0 : ℝ), (42 : ℝ)) := by simpa using hq
      subst hq'
      simp [ParametricModel.predict, defaultModel])

/-- C10: with a non-empty grid and matching observation lengths,
`Loss.compute` returns a value exactly when the observation sequence is
non-empty; on an empty observation sequence the final division
`total / N` raises `ZeroDivisionError`. -/
theorem compute_total_iff_obs_nonempty (L : L1Loss) (theta_deg m x : ℝ)
    (t_grid x_obs y_obs : List ℝ) (hg : t_grid ≠ [])
    (hlen : x_obs.length = y_obs.length) :
    (x_obs ≠ [] → ∃ v, L.compute (theta_deg, m, x) t_grid x_obs y_obs = .ok v) ∧
    (x_obs = [] → L.compute (theta_deg, m, x) t_grid x_obs y_obs =
      .error .zeroDivisionError) := by
  constructor
  · intro hN
    rw [compute_eq _ _ _ _ _ (le_of_eq hlen), if_neg (fun hc => hg hc.2), if_neg hN]
    exact ⟨_, rfl⟩
  · intro hN
    rw [compute_eq _ _ _ _ _ (le_of_eq hlen), if_neg (fun hc => hc.1 hN), if_pos hN]

/-- Witness for C10: empty observation sequences make `Loss.compute` fail
with the division-by-zero error. -/
theorem compute_total_iff_obs_nonempty_witness :
    L1Loss.compute ⟨defaultModel⟩ (0, 0, 0) [0] [] [] =
      .error .zeroDivisionError :=
  (compute_total_iff_obs_nonempty ⟨defaultModel⟩ 0 0 0 [0] [] [] (by simp) rfl).2 rfl

lemma predict_zip_eq_map (M : ParametricModel) (t : List ℝ) (theta_deg m x : ℝ) :
    (M.predict t theta_deg m x).1.zip (M.predict t theta_deg m x).2 =
      t.map (fun ti =>
        (ti * Real.cos (theta_deg * Real.pi / 180) -
           Real.exp (m * |ti|) * Real.sin (M.frequency * ti) *
             Real.sin (theta_deg * Real.pi / 180) + x,
         M.y_offset + ti * Real.sin (theta_deg * Real.pi / 180) +
           Real.exp (m * |ti|) * Real.sin (M.frequency * ti) *
             Real.cos (theta_deg * Real.pi / 180))) := by
  simp [ParametricModel.predict, List.zip_map']

lemma npMin_l1dists_predict_perm (M : ParametricModel) {t t' : List ℝ}
    (h : t.Perm t') (theta_deg m x a b : ℝ) :
    npMin (l1dists (M.predict t theta_deg m x).1 (M.predict t theta_deg m x).2 a b) =
    npMin (l1dists (M.predict t' theta_deg m x).1 (M.predict t' theta_deg m x).2 a b) := by
  simp only [l1dists, predict_zip_eq_map, List.map_map]
  exact npMin_perm (h.map _)

/-- C8: `Loss.compute` is invariant under jointly permuting the observation
pairs and under permuting the sample grid `t_grid`. -/
theorem compute_perm_invariant (L : L1Loss) (theta_deg m x : ℝ)
    (t_grid t_grid' x_obs y_obs x_obs' y_obs' : List ℝ)
    (hlen : x_obs.length = y_obs.length) (hlen' : x_obs'.length = y_obs'.length)
    (hobs : (x_obs.zip y_obs).Perm (x_obs'.zip y_obs'))
    (hgrid : t_grid.Perm t_grid') :
    L.compute (theta_deg, m, x) t_grid x_obs y_obs =
      L.compute (theta_deg, m, x) t_grid' x_obs' y_obs' := by
  have hzx : (x_obs.zip y_obs).length = x_obs.length := by
    rw [List.length_zip, hlen, min_self]
  have hzx' : (x_obs'.zip y_obs').length = x_obs'.length := by
    rw [List.length_zip, hlen', min_self]
  have hxx : x_obs.length = x_obs'.length := by
    rw [← hzx, ← hzx']
    exact hobs.length_eq
  have hniff : x_obs = [] ↔ x_obs' = [] := by
    rw [← List.length_eq_zero, ← List.length_eq_zero, hxx]
  have hgiff : t_grid = [] ↔ t_grid' = [] := by
    rw [← List.length_eq_zero, ← List.length_eq_zero, hgrid.length_eq]
  rw [compute_eq _ _ _ _ _ (le_of_eq hlen), compute_eq _ _ _ _ _ (le_of_eq hlen')]
  by_cases hx : x_obs = []
  · have h1 : ¬(x_obs ≠ [] ∧ t_grid = []) := fun hc => hc.1 hx
    have h1' : ¬(x_obs' ≠ [] ∧ t_grid' = []) := fun hc => hc.1 (hniff.mp hx)
    rw [if_neg h1, if_neg h1', if_pos hx, if_pos (hniff.mp hx)]
  · by_cases hg : t_grid = []
    · rw [if_pos ⟨hx, hg⟩, if_pos ⟨fun he => hx (hniff.mpr he), hgiff.mp hg⟩]
    · have h1 : ¬(x_obs ≠ [] ∧ t_grid = []) := fun hc => hg hc.2
      have h1' : ¬(x_obs' ≠ [] ∧ t_grid' = []) := fun hc => hg (hgiff.mpr hc.2)
      have h2' : ¬(x_obs' = []) := fun he => hx (hniff.mpr he)
      rw [if_neg h1, if_neg h1', if_neg hx, if_neg h2']
      have hfun : ((x_obs.zip y_obs).map fun q =>
          npMin (l1dists (L.model.predict t_grid theta_deg m x).1
            (L.model.predict t_grid theta_deg m x).2 q.1 q.2)).sum =
          ((x_obs'.zip y_obs').map fun q =>
            npMin (l1dists (L.model.predict t_grid' theta_deg m x).1
              (L.model.predict t_grid' theta_deg m x).2 q.1 q.2)).sum := by
        have hstep : ((x_obs.zip y_obs).map fun q =>
            npMin (l1dists (L.model.predict t_grid theta_deg m x).1
              (L.model.predict t_grid theta_deg m x).2 q.1 q.2)) =
            ((x_obs.zip y_obs).map fun q =>
              npMin (l1dists (L.model.predict t_grid' theta_deg m x).1
                (L.model.predict t_grid' theta_deg m x).2 q.1 q.2)) := by
          apply List.map_congr_left
          intro q _
          exact npMin_l1dists_predict_perm L.model hgrid theta_deg m x q.1 q.2
        rw [hstep]
        exact (hobs.map _).sum_eq
      rw [hfun, hxx]

/-- Witness for C8: swapping both observations and both grid samples leaves
the loss unchanged. -/
theorem compute_perm_invariant_witness :
    L1Loss.compute ⟨defaultModel⟩ (0, 0, 0) [0, 1] [1, 3] [2, 4] =
      L1Loss.compute ⟨defaultModel⟩ (0, 0, 0) [1, 0] [3, 1] [4, 2] :=
  compute_perm_invariant ⟨defaultModel⟩ 0 0 0 [0, 1] [1, 0] [1, 3] [2, 4] [3, 1] [4, 2]
    rfl rfl (List.Perm.swap (3, 4) (1, 2) []) (List.Perm.swap 1 0 [])

/-- C6: `Model.validate_parameters(theta, m, x)` holds iff theta ∈ [0, 50],
m ∈ [-0.05, 0.05] and x ∈ [0, 100] (closed intervals), and these are
exactly the intervals returned by `Model.get_parameter_bounds`. -/
theorem validate_parameters_iff_bounds (M : ParametricModel)
    (theta_deg m x : ℝ) :
    (M.validate_parameters theta_deg m x ↔
      theta_deg ∈ Set.Icc (0 : ℝ) 50 ∧ m ∈ Set.Icc (-0.05 : ℝ) 0.05 ∧
        x ∈ Set.Icc (0 : ℝ) 100) ∧
    M.get_parameter_bounds = ((0, 50), (-0.05, 0.05), (0, 100)) := by
  constructor
  · simp [ParametricModel.validate_parameters, ParametricModel.get_parameter_bounds,
      Set.mem_Icc]
  · rfl

/-- One entry of `optimization_history`: the dict
`{'method': ..., 'theta': ..., 'm': ..., 'x': ..., 'loss': ...}`. -/
structure OptStep where
  method : String
  theta : ℝ
  m : ℝ
  x : ℝ
  loss : ℝ

/-- The `Optimizer` state: its instance-owned `optimization_history` list
(the model, loss, seed and verbosity fields play no role in the history
or result plumbing and are omitted). -/
structure Optimizer where
  optimization_history : List OptStep

/-- Embedding of `Optimizer._refine`: the SciPy `minimize(..., x0=[theta_init,
m_init, x_init], method=L-BFGS-B)` call is external library code, abstracted
as the oracle `result_min` mapping the initial point to `(result_min.x,
result_min.fun)`; its result is appended to the history with method tag
`'L-BFGS-B'` and returned. -/
def Optimizer._refine (opt : Optimizer) (theta_init m_init x_init : ℝ)
    (result_min : ℝ × ℝ × ℝ → ℝ × ℝ × ℝ × ℝ) : Optimizer × (ℝ × ℝ × ℝ × ℝ) :=
  let r := result_min (theta_init, m_init, x_init)
  ({ optimization_history := opt.optimization_history ++
      [⟨"L-BFGS-B", r.1, r.2.1, r.2.2.1, r.2.2.2⟩] },
   r)

/-- Embedding of `Optimizer.optimize`: the SciPy `differential_evolution`
call is external library code, abstracted as the oracle value `result_de =
(result_de.x, result_de.fun)`; its result is appended to history with method
tag `'differential_evolution'`, then refinement runs iff `use_refinement`,
and the terminal phase's `(theta, m, x, loss)` is returned. -/
def Optimizer.optimize (opt : Optimizer) (result_de : ℝ × ℝ × ℝ × ℝ)
    (result_min : ℝ × ℝ × ℝ → ℝ × ℝ × ℝ × ℝ)
    (use_refinement : Bool) : Optimizer × (ℝ × ℝ × ℝ × ℝ) :=
  let opt1 : Optimizer := { optimization_history := opt.optimization_history ++
    [⟨"differential_evolution", result_de.1, result_de.2.1, result_de.2.2.1,
      result_de.2.2.2⟩] }
  if use_refinement then
    opt1._refine result_de.1 result_de.2.1 result_de.2.2.1 result_min
  else
    (opt1, result_de)

/-- Counterexample to C3 as stated: on a fresh optimizer, the global-phase
history entry carries method tag "differential_evolution", not
"global-search". -/
theorem optimize_history_tag_counterexample :
    ¬ (((Optimizer.optimize ⟨[]⟩ (0, 0, 0, 0) (fun _ => (0, 0, 0, 0))
          true).1.optimization_history.getD 0 ⟨"", 0, 0, 0, 0⟩).method =
        "global-search") := by
  intro h
  rw [Optimizer.optimize, Optimizer._refine] at h
  simp at h

/-- C3 (amended): after a single `optimize` call on a fresh optimizer, the
history has exactly one entry with refinement disabled and exactly two with
refinement enabled, global phase first, the global-phase entry tagged
"differential_evolution" and the refinement-phase entry tagged "L-BFGS-B". -/
theorem optimize_history_structure (result_de : ℝ × ℝ × ℝ × ℝ)
    (result_min : ℝ × ℝ × ℝ → ℝ × ℝ × ℝ × ℝ) :
    (Optimizer.optimize ⟨[]⟩ result_de result_min false).1.optimization_history =
      [⟨"differential_evolution", result_de.1, result_de.2.1, result_de.2.2.1,
        result_de.2.2.2⟩] ∧
    (Optimizer.optimize ⟨[]⟩ result_de result_min true).1.optimization_history =
      [⟨"differential_evolution", result_de.1, result_de.2.1, result_de.2.2.1,
        result_de.2.2.2⟩,
       ⟨"L-BFGS-B", (result_min (result_de.1, result_de.2.1, result_de.2.2.1)).1,
        (result_min (result_de.1, result_de.2.1, result_de.2.2.1)).2.1,
        (result_min (result_de.1, result_de.2.1, result_de.2.2.1)).2.2.1,
        (result_min (result_de.1, result_de.2.1, result_de.2.2.1)).2.2.2⟩] := by
  constructor
  · rw [Optimizer.optimize]
    simp
  · rw [Optimizer.optimize, Optimizer._refine]
    simp

/-- C5: `optimize` returns the terminal phase's result: the global-phase
candidate and loss when refinement is disabled, and the refinement phase's
result (started from the global candidate) when enabled — unconditionally,
hence with no rollback even when the refined loss is worse. -/
theorem optimize_returns_terminal_phase (opt : Optimizer)
    (result_de : ℝ × ℝ × ℝ × ℝ) (result_min : ℝ × ℝ × ℝ → ℝ × ℝ × ℝ × ℝ) :
    (opt.optimize result_de result_min false).2 = result_de ∧
    (opt.optimize result_de result_min true).2 =
      result_min (result_de.1, result_de.2.1, result_de.2.2.1) := by
  constructor
  · rw [Optimizer.optimize]
    simp
  · rw [Optimizer.optimize, Optimizer._refine]
    simp

/-- Python heap model for the aliasing behaviour of
`Optimizer.get_history`, which returns `self.optimization_history.copy()`:
`dicts` holds the step-record dict objects and `lists` holds the list
objects, each a list of dict addresses. A list `.copy()` in Python copies
the spine but shares the element references. -/
structure PyHeap where
  dicts : List OptStep
  lists : List (List ℕ)

/-- Dereference a list object. -/
def PyHeap.readList (s : PyHeap) (a : ℕ) : List ℕ :=
  s.lists.getD a []

/-- Dereference a step-record dict object. -/
def PyHeap.readStep (s : PyHeap) (a : ℕ) : OptStep :=
  s.dicts.getD a ⟨"", 0, 0, 0, 0⟩

/-- The optimizer's history as seen through the list object at address
`a`: the sequence of step records it references. -/
def PyHeap.readHistory (s : PyHeap) (a : ℕ) : List OptStep :=
  (s.readList a).map s.readStep

/-- Embedding of `Optimizer.get_history` over the heap model:
`self.optimization_history.copy()` allocates a fresh list object holding
the same dict addresses and returns its address. -/
def PyHeap.get_history (s : PyHeap) (hist : ℕ) : PyHeap × ℕ :=
  ({ s with lists := s.lists ++ [s.readList hist] }, s.lists.length)

/-- In-place mutation of the list object at address `a` (e.g. `append`,
`clear`, item assignment on the returned list). -/
def PyHeap.setListObj (s : PyHeap) (a : ℕ) (v : List ℕ) : PyHeap :=
  { s with lists := s.lists.set a v }

/-- In-place mutation of the step-record dict object at address `a`. -/
def PyHeap.setDictObj (s : PyHeap) (a : ℕ) (v : OptStep) : PyHeap :=
  { s with dicts := s.dicts.set a v }

/-- Counterexample to C4 as stated: `get_history` returns a shallow copy,
so mutating a step record reached through the returned list changes the
optimizer's internal history. Concretely: internal history is the list
object at address 0 referencing the single record at dict address 0;
after `get_history`, writing through the copy's first element changes what
the internal history reads back. -/
theorem get_history_shallow_copy_counterexample :
    PyHeap.readHistory
      (PyHeap.setDictObj
        (PyHeap.get_history ⟨[⟨"differential_evolution", 1, 2, 3, 4⟩], [[0]]⟩ 0).1
        ((PyHeap.readList
            (PyHeap.get_history ⟨[⟨"differential_evolution", 1, 2, 3, 4⟩], [[0]]⟩ 0).1
            (PyHeap.get_history ⟨[⟨"differential_evolution", 1, 2, 3, 4⟩], [[0]]⟩ 0).2).getD 0 0)
        ⟨"mutated", 1, 2, 3, 4⟩)
      0 ≠
    PyHeap.readHistory
      (PyHeap.get_history ⟨[⟨"differential_evolution", 1, 2, 3, 4⟩], [[0]]⟩ 0).1 0 := by
  intro h
  have hm := congrArg (fun l => (l.getD 0 ⟨"", 0, 0, 0, 0⟩).method) h
  simp [PyHeap.get_history, PyHeap.readHistory, PyHeap.readList, PyHeap.readStep,
    PyHeap.setDictObj] at hm

/-- C4 (amended): `get_history` returns a shallow copy: allocating it leaves
the internal history unchanged, and any mutation of the returned list
object itself leaves the internal history unchanged (while mutation of the
shared step records does propagate, as the counterexample shows). -/
theorem get_history_spine_copy (s : PyHeap) (hist : ℕ) (v : List ℕ)
    (hh : hist < s.lists.length) :
    PyHeap.readHistory (s.get_history hist).1 hist = PyHeap.readHistory s hist ∧
    PyHeap.readHistory
        (PyHeap.setListObj (s.get_history hist).1 (s.get_history hist).2 v) hist =
      PyHeap.readHistory s hist := by
  have hread : PyHeap.readList (s.get_history hist).1 hist = PyHeap.readList s hist := by
    simp only [PyHeap.get_history, PyHeap.readList]
    exact List.getD_append _ _ _ _ hh
  have hset : PyHeap.readList
      (PyHeap.setListObj (s.get_history hist).1 (s.get_history hist).2 v) hist =
      PyHeap.readList s hist := by
    simp only [PyHeap.get_history, PyHeap.setListObj, PyHeap.readList,
      List.getD_eq_getElem?_getD]
    rw [List.getElem?_set_ne (by omega), List.getElem?_append_left hh]
  constructor
  · rw [PyHeap.readHistory, hread]
    rfl
  · rw [PyHeap.readHistory, hset]
    rfl

/-- Witness for C4 (amended) at the one-record heap, `hist = 0`,
overwriting the copy's spine with `[5]`. -/
theorem get_history_spine_copy_witness :
    PyHeap.readHistory
        (PyHeap.get_history ⟨[⟨"differential_evolution", 1, 2, 3, 4⟩], [[0]]⟩ 0).1 0 =
      PyHeap.readHistory ⟨[⟨"differential_evolution", 1, 2, 3, 4⟩], [[0]]⟩ 0 ∧
    PyHeap.readHistory
        (PyHeap.setListObj
          (PyHeap.get_history ⟨[⟨"differential_evolution", 1, 2, 3, 4⟩], [[0]]⟩ 0).1
          (PyHeap.get_history ⟨[⟨"differential_evolution", 1, 2, 3, 4⟩], [[0]]⟩ 0).2
          [5]) 0 =
      PyHeap.readHistory ⟨[⟨"differential_evolution", 1, 2, 3, 4⟩], [[0]]⟩ 0 :=
  get_history_spine_copy ⟨[⟨"differential_evolution", 1, 2, 3, 4⟩], [[0]]⟩ 0 [5]
    (by decide)

/-- The errors `DataLoader.load` surfaces to the caller (the re-raised
`FileNotFoundError` and the `ValueError`s raised for empty data, missing
columns, mismatched column lengths, and an empty table). -/
inductive DataError
  | fileNotFound
  | emptyDataError
  | missingColumns
  | lengthMismatch
  | emptyFile
deriving DecidableEq

/-- A parsed CSV table: named columns of real values
(the result of a successful `pd.read_csv`). -/
structure DataFrame where
  cols : List (String × List ℝ)

/-- Column membership test (`'x' in df.columns`). -/
def DataFrame.hasCol (df : DataFrame) (c : String) : Bool :=
  (df.cols.lookup c).isSome

/-- Column extraction (`df['x'].values`); only meaningful when the column
exists. -/
def DataFrame.col (df : DataFrame) (c : String) : List ℝ :=
  (df.cols.lookup c).getD []

/-- What `pd.read_csv(self.csv_path)` can produce: the path does not exist
(`FileNotFoundError`), the file holds no data (`pd.errors.EmptyDataError`),
or a parsed table. -/
inductive CsvSource
  | missing
  | noData
  | parsed (df : DataFrame)

/-- Embedding of `DataLoader.load`: checks for the `x` and `y` columns,
extracts them, checks the two column lengths match, checks the row count
is non-zero, and otherwise returns `(x_obs, y_obs, n_points)`. Every
`raise` in the source becomes a `DataError` (the wrapping of the internal
`ValueError`s by the `except Exception` clause preserves failure). -/
def DataLoader.load (src : CsvSource) : Except DataError (List ℝ × List ℝ × ℕ) :=
  match src with
  | .missing => .error .fileNotFound
  | .noData => .error .emptyDataError
  | .parsed df =>
      if !df.hasCol "x" || !df.hasCol "y" then .error .missingColumns
      else
        let x_obs := df.col "x"
        let y_obs := df.col "y"
        let n_points := x_obs.length
        if y_obs.length ≠ n_points then .error .lengthMismatch
        else if n_points = 0 then .error .emptyFile
        else .ok (x_obs, y_obs, n_points)

/-- C9: `DataLoader.load` fails with a caller-visible error — returning no
observation data — when the path does not exist, when the file holds no
data, when the table lacks an `x` or `y` column, and when the table is
empty (zero rows). -/
theorem load_fails_on_bad_input (df : DataFrame) :
    DataLoader.load .missing = .error .fileNotFound ∧
    DataLoader.load .noData = .error .emptyDataError ∧
    ((df.hasCol "x" = false ∨ df.hasCol "y" = false) →
      DataLoader.load (.parsed df) = .error .missingColumns) ∧
    (df.hasCol "x" = true → df.hasCol "y" = true →
      df.col "x" = [] → df.col "y" = [] →
      DataLoader.load (.parsed df) = .error .emptyFile) := by
  refine ⟨rfl, rfl, ?_, ?_⟩
  · intro h
    rw [DataLoader.load]
    rcases h with h | h <;> simp [h]
  · intro hx hy hxe hye
    rw [DataLoader.load]
    simp [hx, hy, hxe, hye]

/-- Witness for C9: a table with only an `x` column is rejected for the
missing `y` column, and a table with empty `x` and `y` columns is rejected
as empty. -/
theorem load_fails_on_bad_input_witness :
    DataLoader.load (.parsed ⟨[("x", [1])]⟩) = .error .missingColumns ∧
    DataLoader.load (.parsed ⟨[("x", []), ("y", [])]⟩) = .error .emptyFile :=
  ⟨(load_fails_on_bad_input ⟨[("x", [1])]⟩).2.2.1 (Or.inr rfl),
   (load_fails_on_bad_input ⟨[("x", []), ("y", [])]⟩).2.2.2 rfl rfl rfl rfl⟩

end


